import Mathlib

/-!
Verification development for the bounded code-execution engine of the
droidrun repository (`droidrun/agent/utils/executer.py`).

The Python source is shallowly embedded: Python dicts become ordered
association lists (`Dict`), the pair of `globals`/`locals` mappings passed
to `exec` becomes a `Scope` (which records whether the two are the same
object or two separate ones), the executed code string becomes a small
statement language (`Stmt`) with the statement forms the specification's
properties exercise (assignments, name reads, raw writes to
stdout/stderr, raising an exception), and `exec`'s behaviour on it follows
CPython's module-level semantics: stores go to the locals mapping, loads
search locals, then globals, then the `__builtins__` entry of globals.
Fallible construction (`__init__`, which can raise `ValueError`) returns
`Except`; run-time faults inside executed code are values of type `Exc`
threaded through the interpreter.  `asyncio.wait_for`'s race between
worker completion and the deadline is modelled by an explicit boolean
`completesInTime` parameter of `execute`; whether the abandoned worker
later finishes in the background is outside the model (the source does
not cancel it).
-/

set_option autoImplicit false

namespace Droidrun

/-- A Python `float` as it occurs in `execute`'s `timeout` argument.  The
model does not do floating-point arithmetic; it carries only the value's
`str()` rendering, which is all `execute`'s f-string uses. -/
structure PyFloat where
  repr : String

/-- Identity of an ambient `contextvars.Context` object. -/
abbrev Ctx := Nat

/-- Python run-time values, restricted to the shapes the executor's code
paths construct or the claims exercise: `pynone` is `None`, `vnat`/`vstr`
are sample data values, `tool` is an injected tool callable (identified by
a number), `builtinFn` is an entry of the builtins table, `builtinsModule`
is the `__builtins__` module object installed in unsafe mode, `vdict` is a
dict-valued value (the restricted builtins mapping installed in safe
mode), and `importGuard` is the `__import__` replacement produced by
`create_safe_import`. -/
inductive Value where
  | pynone : Value
  | vnat : Nat → Value
  | vstr : String → Value
  | tool : Nat → Value
  | builtinFn : String → Value
  | builtinsModule : Value
  | vdict : List (String × Value) → Value
  | importGuard : Option (List String) → Option (List String) → Value

/-- A Python dict with string keys: an ordered association list with at
most one entry per key (all operations preserve this, matching dict
insertion-order semantics). -/
structure Dict where
  entries : List (String × Value)

namespace Dict

/-- `d[k]` lookup (first entry with key `k`). -/
def get? (d : Dict) (k : String) : Option Value :=
  match d.entries.find? (fun kv => kv.1 == k) with
  | Option.some kv => Option.some kv.2
  | Option.none => Option.none

/-- `k in d`. -/
def containsKey (d : Dict) (k : String) : Bool :=
  d.entries.any (fun kv => kv.1 == k)

/-- Replace the value at key `k` in an entry list, keeping its position. -/
def replaceEntry (l : List (String × Value)) (k : String) (v : Value) :
    List (String × Value) :=
  match l with
  | [] => []
  | kv :: rest =>
    if kv.1 == k then (k, v) :: rest else kv :: replaceEntry rest k v

/-- `d[k] = v`: overwrite in place if present, else append (Python dicts
keep the original insertion position on overwrite). -/
def set (d : Dict) (k : String) (v : Value) : Dict :=
  if d.containsKey k then ⟨replaceEntry d.entries k v⟩
  else ⟨d.entries ++ [(k, v)]⟩

/-- `d.update(e)`: assign `e`'s entries into `d`, in order. -/
def update (d e : Dict) : Dict :=
  e.entries.foldl (fun acc kv => acc.set kv.1 kv.2) d

end Dict

/-- The `globals`/`locals` pair handed to `exec`.  `same d` is the state
after `use_same_scope` merging, where `self.globals` and `self.locals`
are the very same dict object; `separate g l` keeps two objects. -/
inductive Scope where
  | same (d : Dict)
  | separate (g l : Dict)

namespace Scope

/-- Look a name up in the `__builtins__` entry of the globals dict, as
CPython's LOAD_NAME does after missing locals and globals.  A dict-valued
`__builtins__` (safe mode) is searched directly; the `__builtins__`
module object (unsafe mode) stands for the ambient builtins table. -/
def builtinsLookup (g : Dict) (x : String) : Option Value :=
  match g.get? "__builtins__" with
  | Option.some (Value.vdict entries) => Dict.get? ⟨entries⟩ x
  | Option.some Value.builtinsModule => Option.some (Value.builtinFn x)
  | _ => Option.none

/-- LOAD_NAME: locals, then globals, then builtins. -/
def load (sc : Scope) (x : String) : Option Value :=
  match sc with
  | same d =>
    match d.get? x with
    | Option.some v => Option.some v
    | Option.none => builtinsLookup d x
  | separate g l =>
    match l.get? x with
    | Option.some v => Option.some v
    | Option.none =>
      match g.get? x with
      | Option.some v => Option.some v
      | Option.none => builtinsLookup g x

/-- STORE_NAME: module-level assignment writes to the locals mapping
(which is the single shared dict in `same`). -/
def store (sc : Scope) (x : String) (v : Value) : Scope :=
  match sc with
  | same d => same (d.set x v)
  | separate g l => separate g (l.set x v)

/-- A host-side `self.globals[x] = v` assignment (used for `ui_state`):
writes to the globals mapping. -/
def storeGlobal (sc : Scope) (x : String) (v : Value) : Scope :=
  match sc with
  | same d => same (d.set x v)
  | separate g l => separate (g.set x v) l

/-- The dict `self.globals` refers to. -/
def globalsDict (sc : Scope) : Dict :=
  match sc with
  | same d => d
  | separate g _ => g

/-- The dict `self.locals` refers to. -/
def localsDict (sc : Scope) : Dict :=
  match sc with
  | same d => d
  | separate _ l => l

end Scope

/-- A Python exception: its type's `__name__` and its `str()`. -/
structure Exc where
  name : String
  msg : String

/-- The statement forms of executed code strings that the specification's
properties exercise. `assign x v` is `x = <literal v>`; `assignVar x y`
is `x = y` (a name read that raises `NameError` when `y` is unbound);
`writeOut`/`writeErr` are raw `sys.stdout.write`/`sys.stderr.write`
calls; `raiseExc n m` raises an exception of type name `n` with message
`m`. -/
inductive Stmt where
  | assign (x : String) (v : Value)
  | assignVar (x y : String)
  | writeOut (s : String)
  | writeErr (s : String)
  | raiseExc (name msg : String)

/-- One statement under `exec`: returns the scope after the statement,
the text written to stdout and to stderr, and the raised exception if
any. -/
def runStmt (sc : Scope) : Stmt → Scope × String × String × Option Exc
  | Stmt.assign x v => (sc.store x v, "", "", Option.none)
  | Stmt.assignVar x y =>
    match sc.load y with
    | Option.some v => (sc.store x v, "", "", Option.none)
    | Option.none =>
      (sc, "", "",
        Option.some ⟨"NameError", "name " ++ y ++ " is not defined"⟩)
  | Stmt.writeOut s => (sc, s, "", Option.none)
  | Stmt.writeErr s => (sc, "", s, Option.none)
  | Stmt.raiseExc n m => (sc, "", "", Option.some ⟨n, m⟩)

/-- `exec(code, globals, locals)` on a statement list: runs statements in
order, accumulating the captured stdout and stderr text, stopping at the
first raised exception (scope mutations made before the raise persist,
as they do for Python dicts). -/
def runCode (sc : Scope) : List Stmt → Scope × String × String × Option Exc
  | [] => (sc, "", "", Option.none)
  | st :: rest =>
    match runStmt sc st with
    | (sc1, o1, e1, Option.some ex) => (sc1, o1, e1, Option.some ex)
    | (sc1, o1, e1, Option.none) =>
      match runCode sc1 rest with
      | (sc2, o2, e2, ex2) => (sc2, o1 ++ o2, e1 ++ e2, ex2)

/-- `traceback.format_exc()`: the formatted stack trace of the exception
being handled.  Its exact text is produced by the Python runtime; the
model keeps its observable shape (it ends with the exception's type name
and message). -/
def format_exc (e : Exc) : String :=
  "Traceback (most recent call last):\n  ...\n" ++ e.name ++ ": " ++
    e.msg ++ "\n"

/-- Whether `needle` occurs as a contiguous run inside `hay` (Python's
`needle in hay` on strings); used to state what a result string does and
does not contain. -/
def strContains (hay needle : String) : Bool :=
  go needle.toList hay.toList
where
  go (n : List Char) : List Char → Bool
    | [] => n.isEmpty
    | c :: rest => n.isPrefixOf (c :: rest) || go n rest

/-- Modelled from the spec: the Capability Policy's
`resolve(allowed, blocked) -> decision_fn` of section 4.1 — the
implementation lives in `droidrun.config_manager.safe_execution`, which
is not among the provided source files.  Spec semantics: `allowed is
None` defaults to permit-all, otherwise only names in `allowed` are
permitted; a name in `blocked` is always denied, overriding any allow
decision. -/
def resolve (allowed : Option (List String)) (blocked : List String)
    (name : String) : Bool :=
  (match allowed with
   | Option.none => true
   | Option.some l => l.contains name) && !(blocked.contains name)

/-- A stand-in for the ambient Python builtins table (an external runtime
fixture): a few representative entries.  No claim depends on its
contents. -/
def fullBuiltins : Dict :=
  ⟨[("print", Value.builtinFn "print"), ("len", Value.builtinFn "len"),
    ("range", Value.builtinFn "range"), ("eval", Value.builtinFn "eval")]⟩

/-- Modelled from the spec: `create_safe_builtins` from
`droidrun.config_manager.safe_execution` (not among the provided source
files).  Spec section 4.1: filter the full builtins mapping through the
decision function. -/
def create_safe_builtins (allowed blocked : Option (List String)) : Dict :=
  ⟨fullBuiltins.entries.filter
    (fun kv => resolve allowed (blocked.getD []) kv.1)⟩

/-- Modelled from the spec: `create_safe_import` from
`droidrun.config_manager.safe_execution` (not among the provided source
files) — an import-guard callable closed over the module allow/block
sets, checked at import time inside executed code. -/
def create_safe_import (allowed blocked : Option (List String)) : Value :=
  Value.importGuard allowed blocked

/-- The `tools` argument of `SimpleCodeExecutor.__init__`: a dict
(identifier to callable), a list of functions (each contributing its
`__name__` and itself), or anything else. -/
inductive ToolsArg where
  | dict (d : List (String × Value))
  | list (l : List (String × Value))
  | other

/-- `ExecuterState`: the pydantic state object; `ui_state` defaults to
`None`. -/
structure ExecuterState where
  ui_state : Value := Value.pynone

/-- The executor object built by `__init__`: its scope (the
`self.globals`/`self.locals` pair) plus the recorded flags. -/
structure SimpleCodeExecutor where
  safe_mode : Bool
  use_same_scope : Bool
  scope : Scope

/-- The result of a successful `__init__`: the executor, together with
the caller-passed `globals` dict as `__init__` left it (the same object
the caller holds, mutated in place by the `__builtins__` assignment and
the tool insertions — before any `use_same_scope` merge, which builds a
fresh dict). -/
structure InitOutcome where
  executor : SimpleCodeExecutor
  callerGlobals : Dict

/-- The `{**self.locals, **{k: v for k, v in self.globals.items() if k
not in self.locals}}` merge performed when `use_same_scope` is true. -/
def mergeScopes (locals globals : Dict) : Dict :=
  Dict.update locals
    ⟨globals.entries.filter (fun kv => !(locals.containsKey kv.1))⟩

/-- `SimpleCodeExecutor.__init__`.  `locals`, `globals` and `tools`
default to fresh empty values when `None`; in safe mode the caller's
globals dict receives the restricted builtins mapping (with the safe
`__import__` added) under `__builtins__`, otherwise the `__builtins__`
module object; tools are then written into the same globals dict (a dict
via `update`, a list via per-function assignment keyed by `__name__`);
any other tools shape raises `ValueError`.  With `use_same_scope`,
`self.globals` and `self.locals` become one merged dict. -/
def init (locals0 globals0 : Option Dict) (tools0 : Option ToolsArg)
    (use_same_scope : Bool := true) (safe_mode : Bool := false)
    (allowed_modules : Option (List String) := Option.none)
    (blocked_modules : Option (List String) := Option.none)
    (allowed_builtins : Option (List String) := Option.none)
    (blocked_builtins : Option (List String) := Option.none) :
    Except String InitOutcome :=
  let locals := locals0.getD ⟨[]⟩
  let globals := globals0.getD ⟨[]⟩
  let tools := tools0.getD (ToolsArg.dict [])
  let globals :=
    if safe_mode then
      let safe_builtins_dict := create_safe_builtins allowed_builtins
        blocked_builtins
      let safe_builtins_dict := safe_builtins_dict.set "__import__"
        (create_safe_import allowed_modules blocked_modules)
      globals.set "__builtins__" (Value.vdict safe_builtins_dict.entries)
    else
      globals.set "__builtins__" Value.builtinsModule
  match tools with
  | ToolsArg.dict d =>
    let globals := globals.update ⟨d⟩
    let scope :=
      if use_same_scope then Scope.same (mergeScopes locals globals)
      else Scope.separate globals locals
    Except.ok ⟨⟨safe_mode, use_same_scope, scope⟩, globals⟩
  | ToolsArg.list l =>
    let globals := l.foldl (fun g t => g.set t.1 t.2) globals
    let scope :=
      if use_same_scope then Scope.same (mergeScopes locals globals)
      else Scope.separate globals locals
    Except.ok ⟨⟨safe_mode, use_same_scope, scope⟩, globals⟩
  | ToolsArg.other =>
    Except.error "Tools must be a dictionary or a list of functions."

/-- What `_execute_in_thread` leaves behind: its return string, the
executor's scope after the run, and the value of the module-level slot
`async_utils._exec_context` after the call. -/
structure ThreadOutcome where
  output : String
  scope : Scope
  slot : Option Ctx

/-- `SimpleCodeExecutor._execute_in_thread(code, ui_state, ctx)` acting
on the executor's scope and on the module slot `async_utils._exec_context`
(whose value before the call is `slot0`): set `self.globals["ui_state"]`,
publish `ctx` into the slot when given, run the code with stdout/stderr
redirected into buffers; on success the output is the captured stdout
with captured stderr appended after a newline when non-empty, on a caught
exception the output is the `Error:` line followed by
`traceback.format_exc()`; the `finally` block resets the slot to `None`
when `ctx` was given, on either path. -/
def executeInThread (sc0 : Scope) (slot0 : Option Ctx) (code : List Stmt)
    (ui_state : Value) (ctx : Option Ctx) : ThreadOutcome :=
  let sc := sc0.storeGlobal "ui_state" ui_state
  let slot := if ctx.isSome then ctx else slot0
  match runCode sc code with
  | (sc1, out, err, Option.none) =>
    let output := out ++ (if err = "" then "" else "\n" ++ err)
    ⟨output, sc1, if ctx.isSome then Option.none else slot⟩
  | (sc1, _, _, Option.some e) =>
    let output := "Error: " ++ e.name ++ ": " ++ e.msg ++ "\n" ++
      format_exc e
    ⟨output, sc1, if ctx.isSome then Option.none else slot⟩

/-- `SimpleCodeExecutor.execute(state, code, timeout)`: copy the ambient
context (`ambient`), dispatch `_execute_in_thread` to the executor pool
and wait up to `timeout`.  The model's `completesInTime` parameter is the
outcome of `asyncio.wait_for`'s race: when the worker finishes first its
output is returned unchanged; when the deadline elapses first the
`asyncio.TimeoutError` is caught and the synthetic timeout string is
returned (the worker is not cancelled by the source; its later
background effects are outside the model). -/
def execute (ex : SimpleCodeExecutor) (slot0 : Option Ctx)
    (state : ExecuterState) (code : List Stmt) (timeout : PyFloat)
    (ambient : Ctx) (completesInTime : Bool) :
    String × SimpleCodeExecutor × Option Ctx :=
  if completesInTime then
    let r := executeInThread ex.scope slot0 code state.ui_state
      (Option.some ambient)
    (r.output, { ex with scope := r.scope }, r.slot)
  else
    ("Error: Execution timed out after " ++ timeout.repr ++ " seconds",
      ex, slot0)

/-! ### Association-list lemmas for `Dict` -/

theorem Dict.find?_replaceEntry_self (l : List (String × Value))
    (k : String) (v : Value) (h : l.any (fun kv => kv.1 == k) = true) :
    (Dict.replaceEntry l k v).find? (fun kv => kv.1 == k) =
      Option.some (k, v) := by
  induction l with
  | nil => simp at h
  | cons kv rest ih =>
    by_cases hk : (kv.1 == k) = true
    · simp [Dict.replaceEntry, hk]
    · simp only [List.any_cons, Bool.or_eq_true] at h
      rcases h with h | h
      · exact absurd h hk
      · simp [Dict.replaceEntry, hk, ih h]

theorem Dict.find?_replaceEntry_other (l : List (String × Value))
    (k k' : String) (v : Value) (hne : (k == k') = false) :
    (Dict.replaceEntry l k v).find? (fun kv => kv.1 == k') =
      l.find? (fun kv => kv.1 == k') := by
  induction l with
  | nil => rfl
  | cons kv rest ih =>
    by_cases hk : (kv.1 == k) = true
    · have hkv : kv.1 = k := by simpa using hk
      have hkv' : (kv.1 == k') = false := by
        rw [hkv]
        exact hne
      simp [Dict.replaceEntry, hk, hne, hkv']
    · by_cases hk' : (kv.1 == k') = true
      · simp [Dict.replaceEntry, hk, hk']
      · simp [Dict.replaceEntry, hk, hk', ih]

theorem Dict.get?_set_self (d : Dict) (k : String) (v : Value) :
    (d.set k v).get? k = Option.some v := by
  unfold Dict.set
  by_cases h : d.containsKey k = true
  · simp only [h, if_true, Dict.get?]
    rw [Dict.find?_replaceEntry_self d.entries k v h]
  · simp only [h, if_false, Dict.get?, List.find?_append]
    have hnone : d.entries.find? (fun kv => kv.1 == k) = Option.none := by
      rw [List.find?_eq_none]
      intro x hx
      simp only [Dict.containsKey] at h
      intro hpx
      exact h (List.any_eq_true.mpr ⟨x, hx, hpx⟩)
    simp [hnone]

theorem Dict.get?_set_other (d : Dict) (k k' : String) (v : Value)
    (hne : (k == k') = false) :
    (d.set k v).get? k' = d.get? k' := by
  unfold Dict.set
  by_cases h : d.containsKey k = true
  · simp only [h, if_true, Dict.get?]
    rw [Dict.find?_replaceEntry_other d.entries k k' v hne]
  · simp only [h, if_false, Dict.get?, List.find?_append]
    simp [hne]

theorem Dict.get?_set_isSome (d : Dict) (k k' : String) (v : Value)
    (h : (d.get? k').isSome = true) :
    ((d.set k v).get? k').isSome = true := by
  by_cases hk : (k == k') = true
  · have : k = k' := by simpa using hk
    subst this
    rw [Dict.get?_set_self]
    rfl
  · rw [Dict.get?_set_other d k k' v (by simpa using hk)]
    exact h

theorem Dict.get?_update_isSome (d e : Dict) (k : String)
    (h : e.containsKey k = true ∨ (d.get? k).isSome = true) :
    ((d.update e).get? k).isSome = true := by
  rcases e with ⟨es⟩
  induction es generalizing d with
  | nil =>
    rcases h with h | h
    · simp [Dict.containsKey] at h
    · exact h
  | cons kv rest ih =>
    show ((Dict.update (d.set kv.1 kv.2) ⟨rest⟩).get? k).isSome = true
    apply ih
    rcases h with h | h
    · simp only [Dict.containsKey, List.any_cons, Bool.or_eq_true] at h
      rcases h with h | h
      · right
        have : kv.1 = k := by simpa using h
        rw [this, Dict.get?_set_self]
        rfl
      · left
        exact h
    · right
      exact Dict.get?_set_isSome d kv.1 k kv.2 h

theorem Dict.get?_update_of_not_contains (d e : Dict) (k : String)
    (h : e.containsKey k = false) :
    (d.update e).get? k = d.get? k := by
  rcases e with ⟨es⟩
  induction es generalizing d with
  | nil => rfl
  | cons kv rest ih =>
    simp only [Dict.containsKey, List.any_cons, Bool.or_eq_false_iff] at h
    show (Dict.update (d.set kv.1 kv.2) ⟨rest⟩).get? k = d.get? k
    rw [ih (d.set kv.1 kv.2) (by simpa [Dict.containsKey] using h.2),
      Dict.get?_set_other d kv.1 k kv.2 h.1]

theorem Dict.get?_update_of_mem (d e : Dict) (k : String) (v : Value)
    (hmem : (k, v) ∈ e.entries)
    (hnodup : (e.entries.map Prod.fst).Nodup) :
    ((d.update e).get? k) = Option.some v := by
  rcases e with ⟨es⟩
  induction es generalizing d with
  | nil => simp at hmem
  | cons kv rest ih =>
    simp only [List.mem_cons] at hmem
    show ((Dict.update (d.set kv.1 kv.2) ⟨rest⟩).get? k) = Option.some v
    simp only [List.map_cons, List.nodup_cons] at hnodup
    rcases hmem with hmem | hmem
    · subst hmem
      have hnot : Dict.containsKey ⟨rest⟩ k = false := by
        simp only [Dict.containsKey]
        rw [List.any_eq_false]
        intro x hx
        simp only [beq_iff_eq]
        intro hxk
        apply hnodup.1
        have hmapped := List.mem_map_of_mem Prod.fst hx
        rwa [hxk] at hmapped
      rw [Dict.get?_update_of_not_contains _ _ k hnot,
        Dict.get?_set_self]
    · exact ih (d.set kv.1 kv.2) hmem hnodup.2

theorem Dict.containsKey_eq_isSome_get? (d : Dict) (k : String) :
    d.containsKey k = (d.get? k).isSome := by
  unfold Dict.containsKey Dict.get?
  cases hf : d.entries.find? (fun kv => kv.1 == k) with
  | none =>
    rw [List.find?_eq_none] at hf
    simp only [Option.isSome_none, List.any_eq_false]
    intro x hx
    simpa using hf x hx
  | some kv =>
    simp only [Option.isSome_some]
    have hp := List.find?_some hf
    exact List.any_eq_true.mpr ⟨kv, List.mem_of_find?_eq_some hf, hp⟩

theorem Dict.get?_eq_none_of_not_contains (d : Dict) (k : String)
    (h : d.containsKey k = false) : d.get? k = Option.none := by
  have hh := Dict.containsKey_eq_isSome_get? d k
  rw [h] at hh
  exact Option.not_isSome_iff_eq_none.mp (by rw [← hh]; simp)

theorem Dict.mem_of_get?_eq_some (d : Dict) (k : String) (v : Value)
    (h : d.get? k = Option.some v) : (k, v) ∈ d.entries := by
  unfold Dict.get? at h
  cases hf : d.entries.find? (fun kv => kv.1 == k) with
  | none => rw [hf] at h; cases h
  | some kv =>
    rw [hf] at h
    have hp := List.find?_some hf
    have hk : kv.1 = k := by simpa using hp
    have hv : kv.2 = v := by injection h
    have hmem := List.mem_of_find?_eq_some hf
    rcases kv with ⟨k1, v1⟩
    subst hk
    subst hv
    exact hmem

theorem Dict.keys_replaceEntry (l : List (String × Value)) (k : String)
    (v : Value) :
    (Dict.replaceEntry l k v).map Prod.fst = l.map Prod.fst := by
  induction l with
  | nil => rfl
  | cons kv rest ih =>
    by_cases hk : (kv.1 == k) = true
    · have hkv : kv.1 = k := by simpa using hk
      simp [Dict.replaceEntry, hk, hkv]
    · simp [Dict.replaceEntry, hk, ih]

theorem Dict.containsKey_iff_mem_keys (d : Dict) (k : String) :
    d.containsKey k = true ↔ k ∈ d.entries.map Prod.fst := by
  simp [Dict.containsKey, List.any_eq_true, List.mem_map, beq_iff_eq]

theorem Dict.nodupKeys_set (d : Dict) (k : String) (v : Value)
    (h : (d.entries.map Prod.fst).Nodup) :
    ((d.set k v).entries.map Prod.fst).Nodup := by
  by_cases hc : d.containsKey k = true
  · have hstep : d.set k v = ⟨Dict.replaceEntry d.entries k v⟩ := by
      unfold Dict.set
      simp [hc]
    rw [hstep]
    show (List.map Prod.fst (Dict.replaceEntry d.entries k v)).Nodup
    rw [Dict.keys_replaceEntry]
    exact h
  · have hk : k ∉ d.entries.map Prod.fst := fun hmem =>
      hc ((Dict.containsKey_iff_mem_keys d k).mpr hmem)
    have hstep : d.set k v = ⟨d.entries ++ [(k, v)]⟩ := by
      unfold Dict.set
      simp [hc]
    rw [hstep]
    show (List.map Prod.fst (d.entries ++ [(k, v)])).Nodup
    rw [List.map_append, List.nodup_append]
    refine ⟨h, List.nodup_singleton k, ?_⟩
    intro a ha hb
    simp only [List.map_cons, List.map_nil, List.mem_singleton] at hb
    subst hb
    exact hk ha

theorem Dict.nodupKeys_update (d e : Dict)
    (h : (d.entries.map Prod.fst).Nodup) :
    ((d.update e).entries.map Prod.fst).Nodup := by
  rcases e with ⟨es⟩
  induction es generalizing d with
  | nil => exact h
  | cons kv rest ih =>
    show ((Dict.update (d.set kv.1 kv.2) ⟨rest⟩).entries.map
      Prod.fst).Nodup
    exact ih (d.set kv.1 kv.2) (Dict.nodupKeys_set d kv.1 kv.2 h)

theorem Dict.get?_mergeScopes (locals g : Dict) (k : String)
    (hl : locals.containsKey k = false)
    (hg : (g.entries.map Prod.fst).Nodup) :
    (mergeScopes locals g).get? k = g.get? k := by
  unfold mergeScopes
  cases hgk : g.get? k with
  | none =>
    have hgc : g.containsKey k = false := by
      rw [Dict.containsKey_eq_isSome_get?, hgk]
      rfl
    have hfc : Dict.containsKey
        ⟨g.entries.filter (fun kv => !(locals.containsKey kv.1))⟩ k
        = false := by
      simp only [Dict.containsKey, List.any_eq_false] at hgc ⊢
      intro x hx
      exact hgc x (List.mem_of_mem_filter hx)
    rw [Dict.get?_update_of_not_contains _ _ _ hfc,
      Dict.get?_eq_none_of_not_contains locals k hl]
  | some v =>
    have hmem : (k, v) ∈ g.entries := Dict.mem_of_get?_eq_some g k v hgk
    have hmemf : (k, v) ∈ g.entries.filter
        (fun kv => !(locals.containsKey kv.1)) :=
      List.mem_filter.mpr ⟨hmem, by simp [hl]⟩
    have hnf : ((g.entries.filter
        (fun kv => !(locals.containsKey kv.1))).map Prod.fst).Nodup :=
      List.Nodup.sublist (List.Sublist.map Prod.fst
        (List.filter_sublist g.entries)) hg
    exact Dict.get?_update_of_mem locals ⟨_⟩ k v hmemf hnf

theorem Scope.get?_localsDict_store (sc : Scope) (y : String) (v : Value) :
    (sc.store y v).localsDict.get? y = Option.some v := by
  cases sc <;> simp [Scope.store, Scope.localsDict, Dict.get?_set_self]

theorem Scope.load_store_after_storeGlobal (sc : Scope) (x g : String)
    (v u : Value) (hx : (g == x) = false) :
    ((sc.store x v).storeGlobal g u).load x = Option.some v := by
  cases sc with
  | same d =>
    show Scope.load (Scope.same ((d.set x v).set g u)) x = Option.some v
    have h1 : ((d.set x v).set g u).get? x = Option.some v := by
      rw [Dict.get?_set_other _ _ _ _ hx, Dict.get?_set_self]
    simp [Scope.load, h1]
  | separate gd l =>
    show Scope.load (Scope.separate (gd.set g u) (l.set x v)) x =
      Option.some v
    have h1 : (l.set x v).get? x = Option.some v := Dict.get?_set_self l x v
    simp [Scope.load, h1]

/-! ### Claim theorems -/

/-- C6: the capability policy's decision function (spec-modelled
`resolve`, shared by builtins filtering and import guarding) satisfies:
with no allow-set every name is permitted except blocked ones; with an
explicitly empty allow-set no name is permitted; with a non-empty
allow-set only listed names are permitted; and a blocked name is always
denied, overriding any allow decision. -/
theorem claim_C6 (blocked : List String) (name : String) :
    (resolve Option.none blocked name = !(blocked.contains name))
    ∧ (resolve (Option.some []) blocked name = false)
    ∧ (∀ l : List String,
        resolve (Option.some l) blocked name =
          (l.contains name && !(blocked.contains name)))
    ∧ (blocked.contains name = true →
        ∀ allowed, resolve allowed blocked name = false) := by
  refine ⟨by simp [resolve], by simp [resolve], fun l => rfl,
    fun hb allowed => ?_⟩
  unfold resolve
  rw [hb]
  simp

/-- Witness for C6 at concrete inputs: `os` is blocked, so it is denied
even though it is listed in the allow-set. -/
theorem claim_C6_witness :
    resolve (Option.some ["os", "math"]) ["os"] "os" = false :=
  (claim_C6 ["os"] "os").2.2.2 (by decide) (Option.some ["os", "math"])

/-- C2: when the worker does not complete before the deadline, `execute`
returns (rather than raising — the model's `execute` is a total function)
the synthetic timeout string, which contains the rendering of the
`timeout` value that was passed in. -/
theorem claim_C2 (ex : SimpleCodeExecutor) (slot0 : Option Ctx)
    (state : ExecuterState) (code : List Stmt) (timeout : PyFloat)
    (ambient : Ctx) :
    (execute ex slot0 state code timeout ambient false).1 =
      "Error: Execution timed out after " ++ timeout.repr ++ " seconds"
    ∧ ∃ pre post,
        (execute ex slot0 state code timeout ambient false).1 =
          pre ++ timeout.repr ++ post :=
  ⟨rfl, "Error: Execution timed out after ", " seconds", rfl⟩

/-- C8: whenever a context is propagated into the worker
(`ctx = some c`; `execute` always passes one), the module slot
`async_utils._exec_context` is `None` after `_execute_in_thread`
returns, on every outcome — success or fault. -/
theorem claim_C8 (sc0 : Scope) (slot0 : Option Ctx) (code : List Stmt)
    (ui_state : Value) (c : Ctx) :
    (executeInThread sc0 slot0 code ui_state (Option.some c)).slot =
      Option.none := by
  unfold executeInThread
  rcases hrun : runCode (sc0.storeGlobal "ui_state" ui_state) code with
    ⟨sc1, out, err, exc⟩
  cases exc <;> simp [hrun]

/-- C7: constructing the executor with a `tools` argument that is neither
a dict nor a list raises `ValueError` (modelled as `Except.error` with
the source's message); a dict or a list of functions succeeds; and the
bad-tools shape is the only erroring path of `__init__`. -/
theorem claim_C7 (locals0 globals0 : Option Dict) (uss sm : Bool)
    (am bm ab bb : Option (List String)) :
    (init locals0 globals0 (Option.some ToolsArg.other) uss sm am bm ab bb
      = Except.error "Tools must be a dictionary or a list of functions.")
    ∧ (∀ d, ∃ r, init locals0 globals0
        (Option.some (ToolsArg.dict d)) uss sm am bm ab bb = Except.ok r)
    ∧ (∀ l, ∃ r, init locals0 globals0
        (Option.some (ToolsArg.list l)) uss sm am bm ab bb = Except.ok r)
    ∧ (∀ t msg, init locals0 globals0 (Option.some t) uss sm am bm ab bb
        = Except.error msg → t = ToolsArg.other) := by
  refine ⟨rfl, fun d => ⟨_, rfl⟩, fun l => ⟨_, rfl⟩, fun t msg h => ?_⟩
  cases t with
  | dict d => exact absurd h (by simp [init])
  | list l => exact absurd h (by simp [init])
  | other => rfl

/-- Witness for C7: at concrete arguments, a malformed `tools` yields the
`ValueError` and a well-formed one does not error. -/
theorem claim_C7_witness :
    init Option.none Option.none (Option.some ToolsArg.other) true false
        Option.none Option.none Option.none Option.none
      = Except.error "Tools must be a dictionary or a list of functions."
    ∧ ToolsArg.other = ToolsArg.other := by
  have h := claim_C7 Option.none Option.none true false Option.none
    Option.none Option.none Option.none
  exact ⟨h.1, h.2.2.2 ToolsArg.other
    "Tools must be a dictionary or a list of functions." h.1⟩

/-- C5: when the run completes without a fault, the result equals the
captured stdout when the captured stderr is empty, and captured stdout
followed by one newline followed by captured stderr otherwise. -/
theorem claim_C5 (ex : SimpleCodeExecutor) (slot0 : Option Ctx)
    (state : ExecuterState) (code : List Stmt) (timeout : PyFloat)
    (ambient : Ctx) {sc1 : Scope} {out err : String}
    (hrun : runCode (ex.scope.storeGlobal "ui_state" state.ui_state) code =
      (sc1, out, err, Option.none)) :
    (execute ex slot0 state code timeout ambient true).1 =
      (if err = "" then out else out ++ "\n" ++ err) := by
  show (executeInThread ex.scope slot0 code state.ui_state
    (Option.some ambient)).output = _
  simp only [executeInThread, hrun]
  by_cases herr : err = ""
  · simp [herr]
  · rw [if_neg herr, if_neg herr, ← String.append_assoc]

/-- Witness for C5: code writing `"out"` to stdout and `"err"` to stderr
yields exactly `"out\nerr"`. -/
theorem claim_C5_witness :
    (execute ⟨false, true, Scope.same ⟨[]⟩⟩ Option.none ⟨Value.pynone⟩
        [Stmt.writeOut "out", Stmt.writeErr "err"] ⟨"50.0"⟩ 0 true).1 =
      "out\nerr" := by
  rw [claim_C5 ⟨false, true, Scope.same ⟨[]⟩⟩ Option.none ⟨Value.pynone⟩
    [Stmt.writeOut "out", Stmt.writeErr "err"] ⟨"50.0"⟩ 0 rfl]
  decide

/-- C1: when the executed code raises an exception within the timeout,
`execute` returns normally (it is a total function of the model) a
string that contains both the exception's type name and its message —
the exact `Error:` line followed by the formatted traceback. -/
theorem claim_C1 (ex : SimpleCodeExecutor) (slot0 : Option Ctx)
    (state : ExecuterState) (code : List Stmt) (timeout : PyFloat)
    (ambient : Ctx) {sc1 : Scope} {out err : String} {e : Exc}
    (hrun : runCode (ex.scope.storeGlobal "ui_state" state.ui_state) code =
      (sc1, out, err, Option.some e)) :
    (execute ex slot0 state code timeout ambient true).1 =
      "Error: " ++ e.name ++ ": " ++ e.msg ++ "\n" ++ format_exc e
    ∧ (∃ pre post, (execute ex slot0 state code timeout ambient true).1 =
        pre ++ e.name ++ post)
    ∧ (∃ pre post, (execute ex slot0 state code timeout ambient true).1 =
        pre ++ e.msg ++ post) := by
  have hmain : (execute ex slot0 state code timeout ambient true).1 =
      "Error: " ++ e.name ++ ": " ++ e.msg ++ "\n" ++ format_exc e := by
    show (executeInThread ex.scope slot0 code state.ui_state
      (Option.some ambient)).output = _
    simp only [executeInThread, hrun]
  refine ⟨hmain,
    ⟨"Error: ", ": " ++ e.msg ++ "\n" ++ format_exc e, ?_⟩,
    ⟨"Error: " ++ e.name ++ ": ", "\n" ++ format_exc e, ?_⟩⟩ <;>
  · rw [hmain]
    simp [String.append_assoc]

/-- Witness for C1: a `ValueError("boom")` raised by the code produces a
string naming `ValueError` and `boom`. -/
theorem claim_C1_witness :
    (execute ⟨false, true, Scope.same ⟨[]⟩⟩ Option.none ⟨Value.pynone⟩
        [Stmt.raiseExc "ValueError" "boom"] ⟨"50.0"⟩ 0 true).1 =
      "Error: ValueError: boom\n" ++ format_exc ⟨"ValueError", "boom"⟩ := by
  rw [(claim_C1 ⟨false, true, Scope.same ⟨[]⟩⟩ Option.none ⟨Value.pynone⟩
    [Stmt.raiseExc "ValueError" "boom"] ⟨"50.0"⟩ 0 rfl).1]
  decide

/-- C9: when executed code raises after having written to stdout, the
runner's result is exactly the formatted error text — the captured
stdout does not contribute to it. -/
theorem claim_C9 (sc0 : Scope) (slot0 : Option Ctx) (code : List Stmt)
    (ui_state : Value) (ctx : Option Ctx) {sc1 : Scope} {out err : String}
    {e : Exc}
    (hrun : runCode (sc0.storeGlobal "ui_state" ui_state) code =
      (sc1, out, err, Option.some e)) :
    (executeInThread sc0 slot0 code ui_state ctx).output =
      "Error: " ++ e.name ++ ": " ++ e.msg ++ "\n" ++ format_exc e := by
  simp only [executeInThread, hrun]

/-- Witness for C9: code that writes `"hello"` to stdout and then raises
returns only the error text; `"hello"` does not appear in it. -/
theorem claim_C9_witness :
    (executeInThread (Scope.same ⟨[]⟩) Option.none
        [Stmt.writeOut "hello", Stmt.raiseExc "ValueError" "boom"]
        Value.pynone (Option.some 0)).output =
      "Error: ValueError: boom\n" ++ format_exc ⟨"ValueError", "boom"⟩
    ∧ strContains
        (executeInThread (Scope.same ⟨[]⟩) Option.none
          [Stmt.writeOut "hello", Stmt.raiseExc "ValueError" "boom"]
          Value.pynone (Option.some 0)).output "hello" = false := by
  have h := claim_C9 (Scope.same ⟨[]⟩) Option.none
    [Stmt.writeOut "hello", Stmt.raiseExc "ValueError" "boom"]
    Value.pynone (Option.some 0) rfl
  constructor
  · rw [h]
    decide
  · rw [h]
    decide

/-- C3 counterexample: an executor constructed with
`use_same_scope = False` (empty tools, fresh empty locals and globals);
the first `execute` call runs `x = 5`, the second runs `y = x`.  The
second call succeeds (its result is the empty success output, not a
`NameError` string) and binds `y` to `5`: the variable assigned at top
level by the first call IS readable by the second call, because
`self.locals` is the same persistent dict across calls — refuting the
claim's `shared_scope = False` half. -/
theorem claim_C3_counterexample :
    (init (Option.some ⟨[]⟩) (Option.some ⟨[]⟩)
        (Option.some (ToolsArg.dict [])) false false Option.none
        Option.none Option.none Option.none
      = Except.ok ⟨⟨false, false,
          Scope.separate ⟨[("__builtins__", Value.builtinsModule)]⟩ ⟨[]⟩⟩,
          ⟨[("__builtins__", Value.builtinsModule)]⟩⟩)
    ∧ (execute (execute ⟨false, false,
          Scope.separate ⟨[("__builtins__", Value.builtinsModule)]⟩ ⟨[]⟩⟩
          Option.none ⟨Value.pynone⟩ [Stmt.assign "x" (Value.vnat 5)]
          ⟨"50.0"⟩ 0 true).2.1
        Option.none ⟨Value.pynone⟩ [Stmt.assignVar "y" "x"]
        ⟨"50.0"⟩ 0 true).1 = ""
    ∧ (execute (execute ⟨false, false,
          Scope.separate ⟨[("__builtins__", Value.builtinsModule)]⟩ ⟨[]⟩⟩
          Option.none ⟨Value.pynone⟩ [Stmt.assign "x" (Value.vnat 5)]
          ⟨"50.0"⟩ 0 true).2.1
        Option.none ⟨Value.pynone⟩ [Stmt.assignVar "y" "x"]
        ⟨"50.0"⟩ 0 true).2.1.scope.localsDict.get? "y"
      = Option.some (Value.vnat 5) := by
  refine ⟨rfl, rfl, rfl⟩

/-- C3 amended: a variable assigned at top level by the code of one
`execute` call (under any name other than the reserved `ui_state`) is
readable by the code of a subsequent `execute` call on the same executor
with BOTH settings of `shared_scope`: the locals mapping persists across
calls on the same instance, and top-level reads consult it first.  (The
claim's `shared_scope = True` half is as stated; its `False` half is
corrected by `claim_C3_counterexample`.) -/
theorem claim_C3_amended (ex : SimpleCodeExecutor) (slot0 slot1 : Option Ctx)
    (st1 st2 : ExecuterState) (t1 t2 : PyFloat) (a1 a2 : Ctx)
    (x y : String) (v : Value) (hx : x ≠ "ui_state") :
    (execute (execute ex slot0 st1 [Stmt.assign x v] t1 a1 true).2.1
        slot1 st2 [Stmt.assignVar y x] t2 a2 true).1 = ""
    ∧ (execute (execute ex slot0 st1 [Stmt.assign x v] t1 a1 true).2.1
        slot1 st2 [Stmt.assignVar y x] t2 a2
        true).2.1.scope.localsDict.get? y = Option.some v := by
  have hbx : ("ui_state" == x) = false := by
    rw [beq_eq_false_iff_ne]
    exact fun h => hx h.symm
  have hload := Scope.load_store_after_storeGlobal
    (ex.scope.storeGlobal "ui_state" st1.ui_state) x "ui_state" v
    st2.ui_state hbx
  constructor
  · simp [execute, executeInThread, runCode, runStmt, hload]
  · simp [execute, executeInThread, runCode, runStmt, hload,
      Scope.get?_localsDict_store]

/-- Witness for the amended C3, at `shared_scope = True` (an executor
whose merged scope is one dict): `a = 7` in call one, `b = a` in call
two succeeds and binds `b` to `7`. -/
theorem claim_C3_amended_witness :
    (execute (execute ⟨false, true, Scope.same ⟨[]⟩⟩ Option.none
        ⟨Value.pynone⟩ [Stmt.assign "a" (Value.vnat 7)] ⟨"50.0"⟩ 0
        true).2.1
        Option.none ⟨Value.pynone⟩ [Stmt.assignVar "b" "a"] ⟨"50.0"⟩ 0
        true).1 = ""
    ∧ (execute (execute ⟨false, true, Scope.same ⟨[]⟩⟩ Option.none
        ⟨Value.pynone⟩ [Stmt.assign "a" (Value.vnat 7)] ⟨"50.0"⟩ 0
        true).2.1
        Option.none ⟨Value.pynone⟩ [Stmt.assignVar "b" "a"] ⟨"50.0"⟩ 0
        true).2.1.scope.localsDict.get? "b" = Option.some (Value.vnat 7) :=
  claim_C3_amended ⟨false, true, Scope.same ⟨[]⟩⟩ Option.none Option.none
    ⟨Value.pynone⟩ ⟨Value.pynone⟩ ⟨"50.0"⟩ ⟨"50.0"⟩ 0 0 "a" "b"
    (Value.vnat 7) (by decide)

theorem init_dict_spec (locals base : Dict) (d : List (String × Value))
    (k : String) (v : Value) (hmem : (k, v) ∈ d)
    (hnodupd : (d.map Prod.fst).Nodup)
    (hbase : (base.entries.map Prod.fst).Nodup) :
    (base.update ⟨d⟩).get? k = Option.some v
    ∧ (locals.containsKey k = false →
        (Scope.same (mergeScopes locals (base.update ⟨d⟩))).load k =
          Option.some v
        ∧ (Scope.separate (base.update ⟨d⟩) locals).load k =
          Option.some v) := by
  have hG : (base.update ⟨d⟩).get? k = Option.some v :=
    Dict.get?_update_of_mem base ⟨d⟩ k v hmem hnodupd
  refine ⟨hG, fun hlk => ⟨?_, ?_⟩⟩
  · have hmerge := Dict.get?_mergeScopes locals (base.update ⟨d⟩) k hlk
      (Dict.nodupKeys_update base ⟨d⟩ hbase)
    rw [hG] at hmerge
    simp [Scope.load, hmerge]
  · have hlnone := Dict.get?_eq_none_of_not_contains locals k hlk
    simp [Scope.load, hlnone, hG]

/-- C4 counterexample: an executor constructed with the default
`use_same_scope = True`, caller-initial locals `{"t": 7}` and a tool
named `t`.  The merged scope binds `t` to the locals value `7`, not to
the tool callable: a tool identifier IS clobbered by the caller's
initial locals — refuting the claim's "never clobbered by ... the
caller's initial locals" part. -/
theorem claim_C4_counterexample :
    (init (Option.some ⟨[("t", Value.vnat 7)]⟩) (Option.some ⟨[]⟩)
        (Option.some (ToolsArg.dict [("t", Value.tool 0)])) true false
        Option.none Option.none Option.none Option.none
      = Except.ok ⟨⟨false, true, Scope.same
          ⟨[("t", Value.vnat 7),
            ("__builtins__", Value.builtinsModule)]⟩⟩,
          ⟨[("__builtins__", Value.builtinsModule),
            ("t", Value.tool 0)]⟩⟩)
    ∧ (Scope.same
        ⟨[("t", Value.vnat 7),
          ("__builtins__", Value.builtinsModule)]⟩).load "t"
      = Option.some (Value.vnat 7)
    ∧ Value.vnat 7 ≠ Value.tool 0 :=
  ⟨rfl, rfl, fun h => Value.noConfusion h⟩

/-- C4 amended: after successful construction, every tool identifier is
bound to its tool callable in the executor's globals dict, in both safe
and unsafe mode — tool bindings are never clobbered by the builtins
mapping or by the caller's initial globals; and whenever the tool's
identifier is not a key of the caller's initial locals, executed code
reading that identifier sees the tool, under either `use_same_scope`
setting.  (A caller-initial-locals entry of the same name shadows the
tool — `claim_C4_counterexample`.) -/
theorem claim_C4_amended (locals globals : Dict)
    (d : List (String × Value)) (uss sm : Bool)
    (am bm ab bb : Option (List String)) (k : String) (v : Value)
    {r : InitOutcome} (hmem : (k, v) ∈ d)
    (hnodupd : (d.map Prod.fst).Nodup)
    (hwfG : (globals.entries.map Prod.fst).Nodup)
    (hok : init (Option.some locals) (Option.some globals)
      (Option.some (ToolsArg.dict d)) uss sm am bm ab bb = Except.ok r) :
    r.callerGlobals.get? k = Option.some v
    ∧ (locals.containsKey k = false →
        r.executor.scope.load k = Option.some v) := by
  cases sm <;> cases uss <;>
  · simp [init] at hok
    subst hok
    refine ⟨(init_dict_spec locals _ d k v hmem hnodupd
      (Dict.nodupKeys_set globals "__builtins__" _ hwfG)).1,
      fun hlk => ?_⟩
    first
    | exact ((init_dict_spec locals _ d k v hmem hnodupd
        (Dict.nodupKeys_set globals "__builtins__" _ hwfG)).2 hlk).1
    | exact ((init_dict_spec locals _ d k v hmem hnodupd
        (Dict.nodupKeys_set globals "__builtins__" _ hwfG)).2 hlk).2

/-- Witness for the amended C4: in safe mode with shared scope, a tool
`t` is visible both in the caller's (mutated) globals dict and to
executed code. -/
theorem claim_C4_amended_witness :
    (match init (Option.some ⟨[]⟩) (Option.some ⟨[]⟩)
        (Option.some (ToolsArg.dict [("t", Value.tool 3)])) true true
        Option.none Option.none Option.none Option.none with
     | Except.ok r =>
        r.callerGlobals.get? "t" = Option.some (Value.tool 3)
        ∧ r.executor.scope.load "t" = Option.some (Value.tool 3)
     | Except.error _ => False) := by
  have h := claim_C4_amended ⟨[]⟩ ⟨[]⟩ [("t", Value.tool 3)] true true
    Option.none Option.none Option.none Option.none "t" (Value.tool 3)
    (by simp) (by decide) (by decide) rfl
  exact ⟨h.1, h.2 (by decide)⟩

/-- C10: `__init__` mutates the caller-supplied globals dict in place:
after a successful construction (tools given as a dict or as a list of
functions), the very mapping the caller passed contains a
`__builtins__` entry and an entry for each tool identifier, for every
`safe_mode` and `use_same_scope` setting. -/
theorem claim_C10 (locals globals : Dict) (uss sm : Bool)
    (am bm ab bb : Option (List String)) :
    (∀ d r, init (Option.some locals) (Option.some globals)
        (Option.some (ToolsArg.dict d)) uss sm am bm ab bb = Except.ok r →
      (r.callerGlobals.get? "__builtins__").isSome = true
      ∧ ∀ kv ∈ d, (r.callerGlobals.get? kv.1).isSome = true)
    ∧ (∀ l r, init (Option.some locals) (Option.some globals)
        (Option.some (ToolsArg.list l)) uss sm am bm ab bb = Except.ok r →
      (r.callerGlobals.get? "__builtins__").isSome = true
      ∧ ∀ kv ∈ l, (r.callerGlobals.get? kv.1).isSome = true) := by
  constructor
  · intro d r hok
    cases sm <;>
    · simp [init] at hok
      subst hok
      constructor
      · exact Dict.get?_update_isSome _ ⟨d⟩ "__builtins__"
          (Or.inr (by rw [Dict.get?_set_self]; rfl))
      · intro kv hkv
        exact Dict.get?_update_isSome _ ⟨d⟩ kv.1
          (Or.inl ((Dict.containsKey_iff_mem_keys ⟨d⟩ kv.1).mpr
            (List.mem_map_of_mem Prod.fst hkv)))
  · intro l r hok
    cases sm <;>
    · simp [init] at hok
      subst hok
      constructor
      · exact Dict.get?_update_isSome _ ⟨l⟩ "__builtins__"
          (Or.inr (by rw [Dict.get?_set_self]; rfl))
      · intro kv hkv
        exact Dict.get?_update_isSome _ ⟨l⟩ kv.1
          (Or.inl ((Dict.containsKey_iff_mem_keys ⟨l⟩ kv.1).mpr
            (List.mem_map_of_mem Prod.fst hkv)))

/-- Witness for C10: constructing over the caller globals `{"a": 1}`
with a tool dict `{"t": tool}` leaves `__builtins__` and `t` present in
the caller's mapping. -/
theorem claim_C10_witness :
    (match init (Option.some ⟨[]⟩) (Option.some ⟨[("a", Value.vnat 1)]⟩)
        (Option.some (ToolsArg.dict [("t", Value.tool 0)])) true false
        Option.none Option.none Option.none Option.none with
     | Except.ok r =>
        (r.callerGlobals.get? "__builtins__").isSome = true
        ∧ (r.callerGlobals.get? "t").isSome = true
     | Except.error _ => False) := by
  have h := (claim_C10 ⟨[]⟩ ⟨[("a", Value.vnat 1)]⟩ true false
    Option.none Option.none Option.none Option.none).1
    [("t", Value.tool 0)] _ rfl
  exact ⟨h.1, h.2 ("t", Value.tool 0) (by simp)⟩

end Droidrun
